import Mathlib

/-!
Shallow embedding of `transifex/native/cds.py` (class `CDSHandler`): a thin
client of the Transifex Content Delivery Service.  HTTP traffic is modelled by
an environment `Net : HttpReq → NetOutcome`; Python exceptions by the inductive
`PyExc`; each operation returns the list of requests it issued (its trace), the
error messages it logged, and either a value or an uncaught exception.
-/

/-- A JSON value, as produced by `response.json()` and consumed/produced by the
client (Python dicts are modelled as association lists in insertion order). -/
inductive JsonVal where
  | str (s : String)
  | num (n : Int)
  | bool (b : Bool)
  | null
  | arr (xs : List JsonVal)
  | obj (fields : List (String × JsonVal))

/-- The body of an HTTP response: either not valid JSON (so that
`response.json()` raises `ValueError`) or a parsed JSON value. -/
inductive Body where
  | notJson
  | json (v : JsonVal)

/-- An HTTP response as seen through `requests.Response`: status code, reason
phrase, and body. -/
structure Response where
  status : Nat
  reason : String
  body : Body

/-- An HTTP request as issued by `requests.get` / `requests.post` in the
client: method, full URL, headers, and optional JSON payload. -/
structure HttpReq where
  method : String
  url : String
  headers : List (String × String)
  jsonBody : Option JsonVal

/-- Outcome of issuing a request: either `requests.ConnectionError` is raised,
or a response object is produced. -/
inductive NetOutcome where
  | raiseConn
  | ok (r : Response)

/-- The network environment: what each issued request yields. -/
abbrev Net := HttpReq → NetOutcome

/-- Python exceptions relevant to this client. -/
inductive PyExc where
  | keyError (k : String)
  | valueError
  | connectionError
  | httpError (detail : String)
  | typeError (detail : String)
  | exception (msg : String)
  | unboundLocal (n : String)

/-- Python `str(e)` for the exceptions above (only the `httpError`,
`typeError` and `exception` forms are ever interpolated into a log message by
the client; the others are given their usual CPython rendering). -/
def PyExc.pyStr : PyExc → String
  | .keyError k => "'" ++ k ++ "'"
  | .valueError => "Expecting value"
  | .connectionError => "ConnectionError"
  | .httpError d => d
  | .typeError d => d
  | .exception m => m
  | .unboundLocal n => "local variable '" ++ n ++ "' referenced before assignment"

/-- Association-list lookup with string keys (Python `d[k]` / `k in d` on the
model of dicts used here). -/
def alookup : List (String × JsonVal) → String → Option JsonVal
  | [], _ => none
  | p :: ps, k => if p.1 = k then some p.2 else alookup ps k

/-- Python dict assignment `d[k] = v`: update the binding in place if the key
is present, otherwise append it (insertion order preserved). -/
def dictInsert : List (String × JsonVal) → String → JsonVal → List (String × JsonVal)
  | [], k, v => [(k, v)]
  | p :: ps, k, v => if p.1 = k then (k, v) :: ps else p :: dictInsert ps k v

/-- Build a Python dict from a list of key/value pairs in order (the semantics
of a dict comprehension: later pairs overwrite earlier ones with the same
key). -/
def pyDictOf (ps : List (String × JsonVal)) : List (String × JsonVal) :=
  ps.foldl (fun d p => dictInsert d p.1 p.2) []

/-- Python subscript `v[k]` with a string key: looks up in a dict, raises
`KeyError` on a missing key and `TypeError` on a non-dict value. -/
def pySubscript (v : JsonVal) (k : String) : Except PyExc JsonVal :=
  match v with
  | .obj fields =>
    match alookup fields k with
    | some w => .ok w
    | none => .error (.keyError k)
  | .arr _ => .error (.typeError "list indices must be integers or slices, not str")
  | .str _ => .error (.typeError "string indices must be integers")
  | _ => .error (.typeError "object is not subscriptable")

/-- Python iteration over a value: lists yield their elements, dicts their
keys, strings their characters; other values are not iterable. -/
def pyIter (v : JsonVal) : Except PyExc (List JsonVal) :=
  match v with
  | .arr xs => .ok xs
  | .obj fields => .ok (fields.map fun p => .str p.1)
  | .str s => .ok (s.data.map fun c => .str (String.singleton c))
  | _ => .error (.typeError "object is not iterable")

/-- Values rejected by Python `set(...)` (unhashable). -/
def isUnhashable : JsonVal → Bool
  | .arr _ => true
  | .obj _ => true
  | _ => false

/-- Truthiness of an optional string (`if not x` in Python): falsy when absent
or empty. -/
def pyOptFalsy : Option String → Bool
  | none => true
  | some s => s = ""

/-- Statuses for which `requests.Response.ok` is `False`, equivalently for
which `raise_for_status` raises `requests.HTTPError`. -/
def statusErr (s : Nat) : Bool := decide (400 ≤ s ∧ s < 600)

/-- The message of the `requests.HTTPError` raised by `raise_for_status` for a
status in 400–599 (`str(e)` of the error). -/
def httpDetail (s : Nat) (reason url : String) : String :=
  if s < 500 then
    toString s ++ " Client Error: " ++ reason ++ " for url: " ++ url
  else
    toString s ++ " Server Error: " ++ reason ++ " for url: " ++ url

/-- Default CDS host. -/
def TRANSIFEX_CDS_HOST : String := "https://cds.svc.transifex.net"

/-- URL path of `TRANSIFEX_CDS_URLS['FETCH_AVAILABLE_LANGUAGES']`. -/
def FETCH_AVAILABLE_LANGUAGES_URL : String := "/languages"

/-- URL path of `TRANSIFEX_CDS_URLS['PUSH_SOURCE_STRINGS']`. -/
def PUSH_SOURCE_STRINGS_URL : String := "/content/"

/-- `TRANSIFEX_CDS_URLS['FETCH_TRANSLATIONS_FOR_LANGUAGE']` instantiated at a
language code: the template string with the language code substituted. -/
def contentPath (c : String) : String := "/content/" ++ c

/-- Modelled from the spec: the three interface-side metadata key names
imported from `transifex.native.consts` (that file is not part of the sources
here); the spec records only that three known keys are renamed, so the
interface-side names are opaque placeholder constants. -/
def KEY_DEVELOPER_COMMENT : String := "KEY_DEVELOPER_COMMENT"

/-- Modelled from the spec: see `KEY_DEVELOPER_COMMENT`. -/
def KEY_CHARACTER_LIMIT : String := "KEY_CHARACTER_LIMIT"

/-- Modelled from the spec: see `KEY_DEVELOPER_COMMENT`. -/
def KEY_TAGS : String := "KEY_TAGS"

/-- The module-level `MAPPING` of meta keys (interface key to CDS key). -/
def MAPPING : List (String × String) :=
  [(KEY_DEVELOPER_COMMENT, "developer_comment"),
   (KEY_CHARACTER_LIMIT, "character_limit"),
   (KEY_TAGS, "tags")]

/-- Python `MAPPING.get(k, k)`. -/
def mappingGet (k : String) : String :=
  match MAPPING.find? (fun p => p.1 = k) with
  | some p => p.2
  | none => k

/-- The client state built by `CDSHandler.__init__`. -/
structure CDSHandler where
  configured_language_codes : List String
  token : String
  secret : Option String
  host : String

/-- A source string, as supplied by the parsing subsystem
(`transifex.native.parsing.SourceString`, an external collaborator of this
module): a key, the string value, a metadata mapping and an optional context.
Modelled from the spec's description of the collaborator's interface. -/
structure SourceString where
  key : String
  string : String
  meta : List (String × JsonVal)
  context : Option String

/-- Request issued by `fetch_languages`. -/
def langReq (h : CDSHandler) : HttpReq :=
  { method := "GET"
    url := h.host ++ FETCH_AVAILABLE_LANGUAGES_URL
    headers := [("Authorization", "Bearer " ++ h.token)]
    jsonBody := none }

/-- Request issued by one iteration of the `fetch_translations` loop. -/
def contentReq (h : CDSHandler) (c : String) : HttpReq :=
  { method := "GET"
    url := h.host ++ contentPath c
    headers := [("Authorization", "Bearer " ++ h.token)]
    jsonBody := none }

/-- Request issued by `push_source_strings`. -/
def pushReq (h : CDSHandler) (data : List (String × JsonVal)) (purge : Bool) : HttpReq :=
  { method := "POST"
    url := h.host ++ PUSH_SOURCE_STRINGS_URL
    headers := [("Authorization", "Bearer " ++ h.token ++ ":" ++ (h.secret.getD ""))]
    jsonBody := some (.obj [("data", .obj data), ("meta", .obj [("purge", .bool purge)])]) }

/-- Log line `'Error retrieving languages from CDS: `{reason}`'`. -/
def langReasonMsg (reason : String) : String :=
  "Error retrieving languages from CDS: `" ++ reason ++ "`"

/-- Log line `'Error retrieving languages from CDS: Malformed response'`. -/
def langMalformedMsg : String := "Error retrieving languages from CDS: Malformed response"

/-- Log line `'Error retrieving languages from CDS: ConnectionError'`. -/
def langConnMsg : String := "Error retrieving languages from CDS: ConnectionError"

/-- Log line `'Error retrieving languages from CDS: UnknownError (`{e}`)'`. -/
def langUnknownMsg (d : String) : String :=
  "Error retrieving languages from CDS: UnknownError (`" ++ d ++ "`)"

/-- Log line `'Error retrieving translations from CDS: `{reason}`'`. -/
def transReasonMsg (reason : String) : String :=
  "Error retrieving translations from CDS: `" ++ reason ++ "`"

/-- Log line `'Error retrieving translations from CDS: Malformed response'`. -/
def transMalformedMsg : String := "Error retrieving translations from CDS: Malformed response"

/-- Log line `'Error retrieving translations from CDS: ConnectionError'`. -/
def transConnMsg : String := "Error retrieving translations from CDS: ConnectionError"

/-- Log line `'Error retrieving translations from CDS: UnknownError (`{e}`)'`. -/
def transUnknownMsg (d : String) : String :=
  "Error retrieving translations from CDS: UnknownError (`" ++ d ++ "`)"

/-- Log line `'Error pushing source strings to CDS: ConnectionError'`. -/
def pushConnMsg : String := "Error pushing source strings to CDS: ConnectionError"

/-- Log line `'Error pushing source strings to CDS: UnknownError (`{e}`)'`. -/
def pushUnknownMsg (d : String) : String :=
  "Error pushing source strings to CDS: UnknownError (`" ++ d ++ "`)"

/-- Message of the exception raised by `push_source_strings` when no secret is
configured. -/
def pushSecretMsg : String :=
  "You need to use `TRANSIFEX_SECRET` when pushing source content"

/-- The `except` chain of `fetch_languages`: `(KeyError, ValueError)`, then
`requests.ConnectionError`, then the catch-all `Exception`; yields the logged
message. -/
def handleLangExc : PyExc → String
  | .keyError _ => langMalformedMsg
  | .valueError => langMalformedMsg
  | .connectionError => langConnMsg
  | e => langUnknownMsg e.pyStr

/-- The `except` chain of `fetch_translations` (same shape as that of
`fetch_languages`, with "translations" in the messages). -/
def handleTransExc : PyExc → String
  | .keyError _ => transMalformedMsg
  | .valueError => transMalformedMsg
  | .connectionError => transConnMsg
  | e => transUnknownMsg e.pyStr

/-- Result of running `fetch_languages`: issued requests, logged errors, and
the returned value (or an uncaught exception). -/
structure LangCall where
  trace : List HttpReq
  logs : List String
  result : Except PyExc JsonVal

/-- The `try` body of `fetch_languages`: issue the GET, check the status (the
reason line is logged and `raise_for_status` raises when the status is an
error), parse the body, and extract the `data` field. -/
def fetchLanguagesBody (h : CDSHandler) (env : Net) : LangCall :=
  let req := langReq h
  match env req with
  | .raiseConn => ⟨[req], [], .error .connectionError⟩
  | .ok r =>
    if statusErr r.status then
      ⟨[req], [langReasonMsg r.reason], .error (.httpError (httpDetail r.status r.reason req.url))⟩
    else
      match r.body with
      | .notJson => ⟨[req], [], .error .valueError⟩
      | .json v =>
        match pySubscript v "data" with
        | .error e => ⟨[req], [], .error e⟩
        | .ok d => ⟨[req], [], .ok d⟩

/-- `CDSHandler.fetch_languages`: the `try` body with its `except` chain; on
any caught exception the initial value `[]` of `languages` is returned. -/
def fetchLanguagesE (h : CDSHandler) (env : Net) : LangCall :=
  let b := fetchLanguagesBody h env
  match b.result with
  | .ok v => ⟨b.trace, b.logs, .ok v⟩
  | .error e => ⟨b.trace, b.logs ++ [handleLangExc e], .ok (.arr [])⟩

/-- The comprehension `[lang['code'] for lang in languages]`: subscripting each
element in order, propagating the first exception. -/
def mapSubscriptCode : List JsonVal → Except PyExc (List JsonVal)
  | [] => .ok []
  | it :: rest =>
    match pySubscript it "code" with
    | .error e => .error e
    | .ok c =>
      match mapSubscriptCode rest with
      | .error e => .error e
      | .ok cs => .ok (c :: cs)

/-- `[lang['code'] for lang in v]` for the value returned by
`fetch_languages`. -/
def extractCodes (v : JsonVal) : Except PyExc (List JsonVal) :=
  match pyIter v with
  | .error e => .error e
  | .ok items => mapSubscriptCode items

/-- `set(languages) & set(self.configured_language_codes)`: raises `TypeError`
on unhashable elements, otherwise keeps the (deduplicated) string elements
that are configured.  Python set iteration order is unspecified; the model
fixes one order, on which no verified property depends. -/
def codesInter (vals : List JsonVal) (cfg : List String) : Except PyExc (List String) :=
  if vals.any isUnhashable then .error (.typeError "unhashable type")
  else
    .ok (((vals.filterMap fun v =>
      match v with
      | .str s => some s
      | _ => none).dedup).filter (fun c => decide (c ∈ cfg)))

/-- State of the `fetch_translations` loop after it stops: issued requests,
logged errors, the `translations` dict accumulated so far, and the uncaught
exception (if an iteration raised). -/
structure LoopOut where
  trace : List HttpReq
  logs : List String
  tr : List (String × JsonVal)
  exc : Option PyExc

/-- The `for language_code in ...` loop of `fetch_translations`: one GET per
code; on an error status the reason line is logged and `raise_for_status`
raises; otherwise the body is parsed and its `data` field stored; the first
exception aborts the remaining iterations. -/
def contentLoop (h : CDSHandler) (env : Net) : List String → LoopOut
  | [] => ⟨[], [], [], none⟩
  | c :: rest =>
    let req := contentReq h c
    match env req with
    | .raiseConn => ⟨[req], [], [], some .connectionError⟩
    | .ok r =>
      if statusErr r.status then
        ⟨[req], [transReasonMsg r.reason], [],
         some (.httpError (httpDetail r.status r.reason req.url))⟩
      else
        match r.body with
        | .notJson => ⟨[req], [], [], some .valueError⟩
        | .json v =>
          match pySubscript v "data" with
          | .error e => ⟨[req], [], [], some e⟩
          | .ok d =>
            let o := contentLoop h env rest
            ⟨req :: o.trace, o.logs, (c, d) :: o.tr, o.exc⟩

/-- Result of running `fetch_translations`. -/
structure TransCall where
  trace : List HttpReq
  logs : List String
  result : Except PyExc (List (String × JsonVal))

/-- The language-discovery phase of `fetch_translations` when no language code
was given: call `fetch_languages`, run the `code` comprehension, and intersect
with the configured codes. -/
def discoverPhase (h : CDSHandler) (env : Net) :
    List HttpReq × List String × Except PyExc (List String) :=
  let fl := fetchLanguagesE h env
  match fl.result with
  | .error e => (fl.trace, fl.logs, .error e)
  | .ok v =>
    match extractCodes v with
    | .error e => (fl.trace, fl.logs, .error e)
    | .ok vals => (fl.trace, fl.logs, codesInter vals h.configured_language_codes)

/-- The tail of `fetch_translations` after the language-code phase `p`: run
the per-language loop on the resulting codes and apply the `except` chain; the
accumulated `translations` dict is returned in every case. -/
def assembleTrans (h : CDSHandler) (env : Net)
    (p : List HttpReq × List String × Except PyExc (List String)) : TransCall :=
  match p.2.2 with
  | .error e => ⟨p.1, p.2.1 ++ [handleTransExc e], .ok []⟩
  | .ok codes =>
    let o := contentLoop h env codes
    match o.exc with
    | none => ⟨p.1 ++ o.trace, p.2.1 ++ o.logs, .ok o.tr⟩
    | some e => ⟨p.1 ++ o.trace, p.2.1 ++ o.logs ++ [handleTransExc e], .ok o.tr⟩

/-- `CDSHandler.fetch_translations`: pick the language codes (discovered, or
the explicitly given truthy code intersected with the configured codes), then
run the loop and error handling of `assembleTrans`. -/
def fetchTranslationsE (h : CDSHandler) (env : Net) (lc : Option String) : TransCall :=
  assembleTrans h env
    (match lc with
     | some c =>
       if c = "" then discoverPhase h env
       else (([] : List HttpReq), ([] : List String),
             codesInter [JsonVal.str c] h.configured_language_codes)
     | none => discoverPhase h env)

/-- `CDSHandler._serialize`: the `(key, {'string': ..., 'meta': ...})` pair
for one source string, with the meta keys renamed through `MAPPING` and the
context added to the meta dict only when truthy. -/
def serialize (s : SourceString) : String × JsonVal :=
  let m := pyDictOf (s.meta.map fun p => (mappingGet p.1, p.2))
  let m2 := if pyOptFalsy s.context then m
            else dictInsert m "context" (.str (s.context.getD ""))
  (s.key, .obj [("string", .str s.string), ("meta", .obj m2)])

/-- Result of running `push_source_strings`. -/
structure PushCall where
  trace : List HttpReq
  logs : List String
  result : Except PyExc Response

/-- `CDSHandler.push_source_strings`: raise when the secret is falsy; build
the data dict from the serialized strings; POST; on `ConnectionError` log and
then fail at `return response` with `UnboundLocalError` (the local `response`
was never assigned); on an error status `raise_for_status` raises
`requests.HTTPError`, caught by the catch-all which logs, and the response
object is returned. -/
def pushSourceStringsE (h : CDSHandler) (env : Net) (strings : List SourceString)
    (purge : Bool) : PushCall :=
  if pyOptFalsy h.secret then
    ⟨[], [], .error (.exception pushSecretMsg)⟩
  else
    let data := pyDictOf (strings.map serialize)
    let req := pushReq h data purge
    match env req with
    | .raiseConn => ⟨[req], [pushConnMsg], .error (.unboundLocal "response")⟩
    | .ok r =>
      if statusErr r.status then
        ⟨[req], [pushUnknownMsg (httpDetail r.status r.reason req.url)], .ok r⟩
      else
        ⟨[req], [], .ok r⟩

/-- The ways the GET of `fetch_languages` can fail (connection failure, error
status, unparsable body, missing `data` key / non-dict body). -/
def langFetchFails (h : CDSHandler) (env : Net) : Prop :=
  env (langReq h) = .raiseConn ∨
  ∃ r, env (langReq h) = .ok r ∧
    (statusErr r.status = true ∨
     (statusErr r.status = false ∧
      (r.body = .notJson ∨
       ∃ v e, r.body = .json v ∧ pySubscript v "data" = .error e)))

/-- A content request that succeeds with `data` value `d`. -/
def ContentOk (h : CDSHandler) (env : Net) (c : String) (d : JsonVal) : Prop :=
  ∃ r v, env (contentReq h c) = .ok r ∧ statusErr r.status = false ∧
    r.body = .json v ∧ pySubscript v "data" = .ok d

/-- A content request that fails, together with the log lines produced inside
the loop before the raise and the exception raised. -/
inductive ContentFailure (h : CDSHandler) (env : Net) (c : String) :
    List String → PyExc → Prop where
  | conn : env (contentReq h c) = .raiseConn →
      ContentFailure h env c [] .connectionError
  | status (r : Response) : env (contentReq h c) = .ok r → statusErr r.status = true →
      ContentFailure h env c [transReasonMsg r.reason]
        (.httpError (httpDetail r.status r.reason (h.host ++ contentPath c)))
  | badBody (r : Response) : env (contentReq h c) = .ok r → statusErr r.status = false →
      r.body = .notJson → ContentFailure h env c [] .valueError
  | badData (r : Response) (v : JsonVal) (e : PyExc) : env (contentReq h c) = .ok r →
      statusErr r.status = false → r.body = .json v → pySubscript v "data" = .error e →
      ContentFailure h env c [] e

/-! ### String helpers -/

/-- `s` starts with `pre`. -/
def hasPre (pre s : String) : Prop := ∃ t, s = pre ++ t

/-- `needle` occurs inside `hay`. -/
def strContains (hay needle : String) : Prop := ∃ a b, hay = a ++ needle ++ b

theorem hasPre_extend (P Q R t : String) (hQ : Q = P ++ R) :
    hasPre P (Q ++ t) := ⟨R ++ t, by rw [hQ, String.append_assoc]⟩

theorem hasPre_refl (P : String) : hasPre P P := ⟨"", (String.append_empty P).symm⟩

theorem hasPre_lang_reason (r : String) :
    hasPre "Error retrieving languages from CDS" (langReasonMsg r) :=
  hasPre_extend "Error retrieving languages from CDS"
    "Error retrieving languages from CDS: `" ": `" (r ++ "`") (by decide)

theorem hasPre_lang_unknown (d : String) :
    hasPre "Error retrieving languages from CDS" (langUnknownMsg d) :=
  hasPre_extend "Error retrieving languages from CDS"
    "Error retrieving languages from CDS: UnknownError (`" ": UnknownError (`"
    (d ++ "`)") (by decide)

theorem hasPre_lang_malformed :
    hasPre "Error retrieving languages from CDS" langMalformedMsg :=
  ⟨": Malformed response", by decide⟩

theorem hasPre_lang_conn :
    hasPre "Error retrieving languages from CDS" langConnMsg :=
  ⟨": ConnectionError", by decide⟩

theorem hasPre_handleLangExc (e : PyExc) :
    hasPre "Error retrieving languages from CDS" (handleLangExc e) := by
  cases e
  case keyError k => exact hasPre_lang_malformed
  case valueError => exact hasPre_lang_malformed
  case connectionError => exact hasPre_lang_conn
  all_goals exact hasPre_lang_unknown _

/-! ### Theorems for the easy push claims -/

/-- A handler with a configured push secret (as in the test suite). -/
def hSec : CDSHandler := ⟨["el", "en"], "some_token", some "some_secret", "https://some.host"⟩

/-- A handler without a push secret. -/
def hNoSec : CDSHandler := ⟨["el", "en"], "some_token", none, "https://some.host"⟩

/-- A network on which every request raises `requests.ConnectionError`. -/
def envDown : Net := fun _ => .raiseConn

/-- C1: at the concrete failing input (a configured secret, a connection
failure on the POST), `push_source_strings` logs the ConnectionError message
and then raises `UnboundLocalError` at `return response` (the local `response`
was never assigned), instead of returning normally as the claim states. -/
theorem push_connection_error_raises_unbound_local :
    pushSourceStringsE hSec envDown [] false =
      ⟨[pushReq hSec [] false], [pushConnMsg], .error (.unboundLocal "response")⟩ := rfl

/-- C2 counterexample: with no secret configured, `push_source_strings` raises
an `Exception` whose message is the code's literal, which differs from the
message quoted in the claim. -/
theorem push_missing_secret_message_cex :
    pushSourceStringsE hNoSec envDown [] false =
      ⟨[], [], .error (.exception "You need to use `TRANSIFEX_SECRET` when pushing source content")⟩ ∧
    "You need to use `TRANSIFEX_SECRET` when pushing source content" ≠
      "You need to use the secret when pushing source content" :=
  ⟨rfl, by decide⟩

/-- C2 (amended): with a falsy (absent or empty) secret, `push_source_strings`
raises an `Exception` with the message "You need to use \x60TRANSIFEX_SECRET\x60
when pushing source content" and issues no network request. -/
theorem push_missing_secret_raises (h : CDSHandler) (env : Net)
    (strings : List SourceString) (purge : Bool) (hs : pyOptFalsy h.secret = true) :
    pushSourceStringsE h env strings purge =
      ⟨[], [],
       .error (.exception "You need to use `TRANSIFEX_SECRET` when pushing source content")⟩ := by
  simp [pushSourceStringsE, hs, pushSecretMsg]

/-- C2 witness: the amended theorem applied at a concrete handler with no
secret. -/
theorem push_missing_secret_raises_witness :
    pushSourceStringsE hNoSec envDown [] false =
      ⟨[], [],
       .error (.exception "You need to use `TRANSIFEX_SECRET` when pushing source content")⟩ :=
  push_missing_secret_raises hNoSec envDown [] false rfl

/-! ### fetch_languages success and error-status claims -/

/-- C8: on a 200 response whose JSON body is a dict containing a `data` key,
`fetch_languages` returns exactly the value of the `data` field and logs no
error. -/
theorem fetch_languages_200_returns_data (h : CDSHandler) (env : Net)
    (rsn : String) (fields : List (String × JsonVal)) (d : JsonVal)
    (henv : env (langReq h) = .ok ⟨200, rsn, .json (.obj fields)⟩)
    (hd : alookup fields "data" = some d) :
    fetchLanguagesE h env = ⟨[langReq h], [], .ok d⟩ := by
  simp [fetchLanguagesE, fetchLanguagesBody, henv, statusErr, pySubscript, hd]

/-- A network whose `/languages` endpoint answers 200 with two language
records (as in the test suite). -/
def envLangs200 : Net := fun req =>
  if req.url = "https://some.host/languages" then
    .ok ⟨200, "OK", .json (.obj [("data", .arr [.obj [("code", .str "el")], .obj [("code", .str "en")]])])⟩
  else .raiseConn

/-- C8 witness: the theorem applied at the concrete 200 environment. -/
theorem fetch_languages_200_returns_data_witness :
    fetchLanguagesE hSec envLangs200 =
      ⟨[langReq hSec], [],
       .ok (.arr [.obj [("code", .str "el")], .obj [("code", .str "en")]])⟩ :=
  fetch_languages_200_returns_data hSec envLangs200 "OK"
    [("data", .arr [.obj [("code", .str "el")], .obj [("code", .str "en")]])] _ rfl rfl

/-! ### fetch_languages on error statuses (C7) -/

/-- A handler with configured language `el` and no secret. -/
def hEl : CDSHandler := ⟨["el"], "some_token", none, "https://some.host"⟩

/-- A network whose `/languages` endpoint answers 304 Not Modified with a
valid body (非2xx but `response.ok` is true in `requests`). -/
def env304 : Net := fun req =>
  if req.url = "https://some.host/languages" then
    .ok ⟨304, "Not Modified", .json (.obj [("data", .arr [.obj [("code", .str "el")]])])⟩
  else .raiseConn

/-- C7 counterexample: a 304 response is non-2xx, yet `fetch_languages`
returns the `data` list and logs nothing, because `requests.Response.ok` is
only false for statuses 400–599. -/
theorem fetch_languages_non2xx_not_error_cex :
    env304 (langReq hEl) =
      .ok ⟨304, "Not Modified", .json (.obj [("data", .arr [.obj [("code", .str "el")]])])⟩ ∧
    ¬(200 ≤ 304 ∧ 304 < 300) ∧
    fetchLanguagesE hEl env304 =
      ⟨[langReq hEl], [], .ok (.arr [.obj [("code", .str "el")]])⟩ :=
  ⟨rfl, by decide, rfl⟩

/-- C7 (amended): on a response with an error status (400–599, exactly the
statuses for which `response.ok` is false), `fetch_languages` returns `[]`,
the last error logged is the UnknownError message built from the string form
of the `requests.HTTPError`, and that detail contains the status code and the
request URL. -/
theorem fetch_languages_error_status (h : CDSHandler) (env : Net) (s : Nat)
    (rsn : String) (b : Body)
    (henv : env (langReq h) = .ok ⟨s, rsn, b⟩) (h4 : 400 ≤ s) (h6 : s < 600) :
    fetchLanguagesE h env =
      ⟨[langReq h],
       [langReasonMsg rsn,
        langUnknownMsg (httpDetail s rsn (h.host ++ FETCH_AVAILABLE_LANGUAGES_URL))],
       .ok (.arr [])⟩ ∧
    strContains (httpDetail s rsn (h.host ++ FETCH_AVAILABLE_LANGUAGES_URL)) (toString s) ∧
    strContains (httpDetail s rsn (h.host ++ FETCH_AVAILABLE_LANGUAGES_URL))
      (h.host ++ FETCH_AVAILABLE_LANGUAGES_URL) := by
  have hst : statusErr s = true := by
    simp only [statusErr, decide_eq_true_eq]
    exact ⟨h4, h6⟩
  refine ⟨?_, ?_, ?_⟩
  · simp [fetchLanguagesE, fetchLanguagesBody, henv, hst, handleLangExc, PyExc.pyStr]
    rfl
  · unfold httpDetail
    by_cases h5 : s < 500
    · simp only [h5, if_true]
      exact ⟨"", " Client Error: " ++ rsn ++ " for url: " ++ (h.host ++ FETCH_AVAILABLE_LANGUAGES_URL),
        by simp [String.empty_append, String.append_assoc]⟩
    · simp only [h5, if_false]
      exact ⟨"", " Server Error: " ++ rsn ++ " for url: " ++ (h.host ++ FETCH_AVAILABLE_LANGUAGES_URL),
        by simp [String.empty_append, String.append_assoc]⟩
  · unfold httpDetail
    by_cases h5 : s < 500
    · simp only [h5, if_true]
      exact ⟨toString s ++ " Client Error: " ++ rsn ++ " for url: ", "",
        by simp [String.append_empty, String.append_assoc]⟩
    · simp only [h5, if_false]
      exact ⟨toString s ++ " Server Error: " ++ rsn ++ " for url: ", "",
        by simp [String.append_empty, String.append_assoc]⟩

/-- A network whose `/languages` endpoint answers 400 Bad Request (as in the
test suite). -/
def env400 : Net := fun req =>
  if req.url = "https://some.host/languages" then
    .ok ⟨400, "Bad Request", .json (.obj [("data", .arr [])])⟩
  else .raiseConn

/-- C7 witness: the amended theorem applied at a concrete 400 response. -/
theorem fetch_languages_error_status_witness :
    fetchLanguagesE hEl env400 =
      ⟨[langReq hEl],
       [langReasonMsg "Bad Request",
        langUnknownMsg (httpDetail 400 "Bad Request"
          (hEl.host ++ FETCH_AVAILABLE_LANGUAGES_URL))],
       .ok (.arr [])⟩ ∧
    strContains (httpDetail 400 "Bad Request" (hEl.host ++ FETCH_AVAILABLE_LANGUAGES_URL))
      (toString 400) ∧
    strContains (httpDetail 400 "Bad Request" (hEl.host ++ FETCH_AVAILABLE_LANGUAGES_URL))
      (hEl.host ++ FETCH_AVAILABLE_LANGUAGES_URL) :=
  fetch_languages_error_status hEl env400 400 "Bad Request"
    (.json (.obj [("data", .arr [])])) rfl (by decide) (by decide)

/-! ### fetch_languages failure modes and the short-circuit of
fetch_translations (C3, C6) -/

theorem fetchLanguagesE_of_fail (h : CDSHandler) (env : Net) (hf : langFetchFails h env) :
    ∃ logs, fetchLanguagesE h env = ⟨[langReq h], logs, .ok (.arr [])⟩ ∧ logs ≠ [] ∧
      ∀ m ∈ logs, hasPre "Error retrieving languages from CDS" m := by
  rcases hf with hc | ⟨r, hr, hcase⟩
  · refine ⟨[langConnMsg], ?_, by simp, ?_⟩
    · simp [fetchLanguagesE, fetchLanguagesBody, hc, handleLangExc]
    · intro m hm
      simp at hm
      subst hm
      exact hasPre_lang_conn
  · rcases hcase with hst | ⟨hst, hbody | ⟨v, e, hbody, hsub⟩⟩
    · refine ⟨[langReasonMsg r.reason,
        langUnknownMsg (httpDetail r.status r.reason (langReq h).url)], ?_, by simp, ?_⟩
      · simp [fetchLanguagesE, fetchLanguagesBody, hr, hst, handleLangExc, PyExc.pyStr]
      · intro m hm
        simp at hm
        rcases hm with rfl | rfl
        · exact hasPre_lang_reason _
        · exact hasPre_lang_unknown _
    · refine ⟨[langMalformedMsg], ?_, by simp, ?_⟩
      · simp [fetchLanguagesE, fetchLanguagesBody, hr, hst, hbody, handleLangExc]
      · intro m hm
        simp at hm
        subst hm
        exact hasPre_lang_malformed
    · refine ⟨[handleLangExc e], ?_, by simp, ?_⟩
      · simp [fetchLanguagesE, fetchLanguagesBody, hr, hst, hbody, hsub]
      · intro m hm
        simp at hm
        subst hm
        exact hasPre_handleLangExc e

theorem fetchTranslationsE_none_of_langs_empty (h : CDSHandler) (env : Net)
    (t : List HttpReq) (l : List String)
    (hfl : fetchLanguagesE h env = ⟨t, l, .ok (.arr [])⟩) :
    fetchTranslationsE h env none = ⟨t, l, .ok []⟩ := by
  simp [fetchTranslationsE, discoverPhase, hfl, extractCodes, pyIter, mapSubscriptCode,
    codesInter, assembleTrans, contentLoop]

/-- C3: when the inner `fetch_languages` call fails (any of its failure
modes), `fetch_translations` with no explicit language code returns the empty
mapping, issues no content request (its trace is exactly the `/languages`
request), and every error logged is a languages-error message. -/
theorem fetch_translations_languages_failure (h : CDSHandler) (env : Net)
    (hf : langFetchFails h env) :
    ∃ logs, fetchTranslationsE h env none = ⟨[langReq h], logs, .ok []⟩ ∧ logs ≠ [] ∧
      ∀ m ∈ logs, hasPre "Error retrieving languages from CDS" m := by
  obtain ⟨logs, hfl, hne, hpre⟩ := fetchLanguagesE_of_fail h env hf
  exact ⟨logs, fetchTranslationsE_none_of_langs_empty h env _ _ hfl, hne, hpre⟩

/-- A network whose `/languages` endpoint answers 500 (as in the test
suite). -/
def env500 : Net := fun req =>
  if req.url = "https://some.host/languages" then
    .ok ⟨500, "Internal Server Error", .json (.obj [("data", .arr [])])⟩
  else .raiseConn

/-- C3 witness: the theorem applied at a concrete environment whose
`/languages` endpoint answers 500. -/
theorem fetch_translations_languages_failure_witness :
    ∃ logs, fetchTranslationsE hEl env500 none = ⟨[langReq hEl], logs, .ok []⟩ ∧ logs ≠ [] ∧
      ∀ m ∈ logs, hasPre "Error retrieving languages from CDS" m :=
  fetch_translations_languages_failure hEl env500
    (Or.inr ⟨⟨500, "Internal Server Error", .json (.obj [("data", .arr [])])⟩, rfl,
      Or.inl (by decide)⟩)

theorem assembleTrans_ok (h : CDSHandler) (env : Net)
    (p : List HttpReq × List String × Except PyExc (List String)) :
    ∃ t l m, assembleTrans h env p = ⟨t, l, .ok m⟩ := by
  obtain ⟨t1, l1, ec⟩ := p
  cases ec with
  | error e => exact ⟨t1, l1 ++ [handleTransExc e], [], rfl⟩
  | ok codes =>
    cases hx : (contentLoop h env codes).exc with
    | none =>
      exact ⟨t1 ++ (contentLoop h env codes).trace, l1 ++ (contentLoop h env codes).logs,
        (contentLoop h env codes).tr, by simp [assembleTrans, hx]⟩
    | some e =>
      exact ⟨t1 ++ (contentLoop h env codes).trace,
        l1 ++ ((contentLoop h env codes).logs ++ [handleTransExc e]),
        (contentLoop h env codes).tr, by simp [assembleTrans, hx]⟩

theorem fetchLanguagesE_split (h : CDSHandler) (env : Net) :
    ∃ t l v, fetchLanguagesE h env = ⟨t, l, .ok v⟩ := by
  simp only [fetchLanguagesE]
  cases hres : (fetchLanguagesBody h env).result with
  | ok v =>
    exact ⟨(fetchLanguagesBody h env).trace, (fetchLanguagesBody h env).logs, v,
      by simp [hres]⟩
  | error e =>
    exact ⟨(fetchLanguagesBody h env).trace,
      (fetchLanguagesBody h env).logs ++ [handleLangExc e], .arr [], by simp [hres]⟩

/-- C6: reads never raise past the boundary: for every environment (hence for
every combination of connection failures, error statuses, unparsable bodies
and missing keys), `fetch_languages` returns a value (and the empty list when
its GET failed) and `fetch_translations` returns a mapping; no `PyExc`
escapes either method. -/
theorem reads_never_raise (h : CDSHandler) (env : Net) (lc : Option String) :
    (∃ t l v, fetchLanguagesE h env = ⟨t, l, .ok v⟩) ∧
    (∃ t l m, fetchTranslationsE h env lc = ⟨t, l, .ok m⟩) ∧
    (langFetchFails h env → ∃ t l, fetchLanguagesE h env = ⟨t, l, .ok (.arr [])⟩) := by
  refine ⟨fetchLanguagesE_split h env, ?_, ?_⟩
  · unfold fetchTranslationsE
    exact assembleTrans_ok h env _
  · intro hf
    obtain ⟨logs, hfl, -, -⟩ := fetchLanguagesE_of_fail h env hf
    exact ⟨_, _, hfl⟩

/-- C6 witness: the theorem applied at a concrete handler and environment. -/
theorem reads_never_raise_witness :
    (∃ t l v, fetchLanguagesE hEl envDown = ⟨t, l, .ok v⟩) ∧
    (∃ t l m, fetchTranslationsE hEl envDown none = ⟨t, l, .ok m⟩) ∧
    (langFetchFails hEl envDown → ∃ t l, fetchLanguagesE hEl envDown = ⟨t, l, .ok (.arr [])⟩) :=
  reads_never_raise hEl envDown none

/-! ### fetch_translations with an explicit language code (C5) -/

/-- C5: with an explicit (truthy) language code, `fetch_translations` issues
no `/languages` request: when the code is configured, its trace is exactly the
one content request for that code and the result maps the code to the `data`
field of the content response; when the code is not configured (second
conjunct), no request at all is issued and the result is empty. -/
theorem fetch_translations_explicit_code (h : CDSHandler) (env : Net) (code : String)
    (r : Response) (v d : JsonVal)
    (hne : code ≠ "") (hc : code ∈ h.configured_language_codes)
    (henv : env (contentReq h code) = .ok r) (hok : statusErr r.status = false)
    (hb : r.body = .json v) (hd : pySubscript v "data" = .ok d) :
    fetchTranslationsE h env (some code) = ⟨[contentReq h code], [], .ok [(code, d)]⟩ ∧
    ∀ c2 : String, c2 ≠ "" → c2 ∉ h.configured_language_codes →
      fetchTranslationsE h env (some c2) = ⟨[], [], .ok []⟩ := by
  constructor
  · have hci : codesInter [JsonVal.str code] h.configured_language_codes = .ok [code] := by
      simp [codesInter, isUnhashable, hc]
    simp [fetchTranslationsE, hne, hci, assembleTrans, contentLoop, henv, hok, hb, hd]
  · intro c2 h1 h2
    have hci : codesInter [JsonVal.str c2] h.configured_language_codes = .ok [] := by
      simp [codesInter, isUnhashable, h2]
    simp [fetchTranslationsE, h1, hci, assembleTrans, contentLoop]

/-- A network whose `/content/el` endpoint answers 200 with a translations
payload (no `/languages` endpoint is available at all). -/
def envContentEl : Net := fun req =>
  if req.url = "https://some.host/content/el" then
    .ok ⟨200, "OK", .json (.obj [("data", .obj [("key1", .obj [("string", .str "key1_el")])])])⟩
  else .raiseConn

/-- C5 witness: the theorem applied at a concrete environment that only
serves `/content/el`. -/
theorem fetch_translations_explicit_code_witness :
    fetchTranslationsE hEl envContentEl (some "el") =
      ⟨[contentReq hEl "el"], [],
       .ok [("el", .obj [("key1", .obj [("string", .str "key1_el")])])]⟩ ∧
    ∀ c2 : String, c2 ≠ "" → c2 ∉ hEl.configured_language_codes →
      fetchTranslationsE hEl envContentEl (some c2) = ⟨[], [], .ok []⟩ :=
  fetch_translations_explicit_code hEl envContentEl "el"
    ⟨200, "OK", .json (.obj [("data", .obj [("key1", .obj [("string", .str "key1_el")])])])⟩
    (.obj [("data", .obj [("key1", .obj [("string", .str "key1_el")])])])
    (.obj [("key1", .obj [("string", .str "key1_el")])])
    (by decide) (by simp [hEl]) rfl rfl rfl rfl

/-! ### The push request shape (C9) -/

theorem pushSourceStringsE_trace (h : CDSHandler) (env : Net)
    (strings : List SourceString) (purge : Bool) (hsec : pyOptFalsy h.secret = false) :
    (pushSourceStringsE h env strings purge).trace =
      [pushReq h (pyDictOf (strings.map serialize)) purge] := by
  simp only [pushSourceStringsE, hsec]
  cases henv : env (pushReq h (pyDictOf (strings.map serialize)) purge) with
  | raiseConn => simp [henv]
  | ok r => by_cases hst : statusErr r.status <;> simp [henv, hst]

/-- C9: with a configured secret, `push_source_strings` issues exactly one
POST to `<host>/content/` with authorization `Bearer <token>:<secret>` and the
JSON body `{"data": <mapping>, "meta": {"purge": <flag>}}`, where the mapping
assembles the serialized `(key, {"string": ..., "meta": ...})` pairs, each
meta key renamed through the fixed `MAPPING` (others passed through) and
`context` included only when truthy. -/
theorem push_request_shape (h : CDSHandler) (env : Net) (strings : List SourceString)
    (purge : Bool) (sec : String) (hs : h.secret = some sec) (hne : sec ≠ "") :
    (pushSourceStringsE h env strings purge).trace =
      [{ method := "POST"
         url := h.host ++ "/content/"
         headers := [("Authorization", "Bearer " ++ h.token ++ ":" ++ sec)]
         jsonBody := some (.obj
           [("data", .obj (pyDictOf (strings.map fun s =>
              (s.key, JsonVal.obj
                [("string", .str s.string),
                 ("meta", .obj (
                   if pyOptFalsy s.context then
                     pyDictOf (s.meta.map fun p => (mappingGet p.1, p.2))
                   else
                     dictInsert (pyDictOf (s.meta.map fun p => (mappingGet p.1, p.2)))
                       "context" (.str (s.context.getD ""))))])))),
            ("meta", .obj [("purge", .bool purge)])]) }] := by
  have hsec : pyOptFalsy h.secret = false := by simp [pyOptFalsy, hs, hne]
  rw [pushSourceStringsE_trace h env strings purge hsec]
  simp only [pushReq, hs, Option.getD_some]
  rfl

/-- C9 witness: the theorem applied at a concrete handler and the empty list:
the POSTed body is exactly `{"data": {}, "meta": {"purge": false}}`. -/
theorem push_request_shape_witness :
    (pushSourceStringsE hSec envDown [] false).trace =
      [{ method := "POST"
         url := "https://some.host/content/"
         headers := [("Authorization", "Bearer some_token:some_secret")]
         jsonBody := some (.obj [("data", .obj []), ("meta", .obj [("purge", .bool false)])]) }] :=
  push_request_shape hSec envDown [] false "some_secret" rfl (by decide)

/-! ### Dict semantics: duplicate keys in the pushed data mapping (C10) -/

theorem alookup_dictInsert (d : List (String × JsonVal)) (a : String) (v : JsonVal)
    (k : String) :
    alookup (dictInsert d a v) k = if a = k then some v else alookup d k := by
  induction d with
  | nil => simp [dictInsert, alookup]
  | cons p ps ih =>
    by_cases hpa : p.1 = a
    · simp only [dictInsert, hpa, if_pos]
      by_cases hak : a = k
      · simp [alookup, hak]
      · rw [alookup, alookup, hpa]
        simp [hak]
    · simp only [dictInsert, hpa, if_neg, not_false_iff]
      by_cases hpk : p.1 = k
      · have hak : a ≠ k := fun hek => hpa (by rw [hpk, hek])
        simp [alookup, hpk, hak]
      · simp [alookup, hpk, ih]

theorem alookup_foldInsert (ps : List (String × JsonVal)) (d : List (String × JsonVal))
    (k : String) :
    alookup (ps.foldl (fun acc p => dictInsert acc p.1 p.2) d) k =
      (((ps.reverse.find? fun p => p.1 = k).map Prod.snd).or (alookup d k)) := by
  induction ps generalizing d with
  | nil => simp
  | cons q rest ih =>
    simp only [List.foldl_cons]
    rw [ih, List.reverse_cons, List.find?_append]
    cases hf : rest.reverse.find? (fun p => decide (p.1 = k)) with
    | some r => simp [hf]
    | none =>
      by_cases hqk : q.1 = k
      · simp [hf, List.find?, hqk, alookup_dictInsert]
      · simp [hf, List.find?, hqk, alookup_dictInsert]

theorem alookup_pyDictOf (ps : List (String × JsonVal)) (k : String) :
    alookup (pyDictOf ps) k = (ps.reverse.find? fun p => p.1 = k).map Prod.snd := by
  rw [pyDictOf, alookup_foldInsert]
  simp [alookup]

theorem mem_keys_dictInsert (d : List (String × JsonVal)) (a : String) (v : JsonVal)
    (k : String) :
    k ∈ (dictInsert d a v).map Prod.fst ↔ k = a ∨ k ∈ d.map Prod.fst := by
  induction d with
  | nil => simp [dictInsert]
  | cons p ps ih =>
    by_cases hpa : p.1 = a
    · simp only [dictInsert, hpa, if_pos, List.map_cons, List.mem_cons]
      tauto
    · simp only [dictInsert, hpa, if_neg, not_false_iff, List.map_cons, List.mem_cons, ih]
      tauto

theorem nodupKeys_dictInsert (d : List (String × JsonVal)) (a : String) (v : JsonVal)
    (h : (d.map Prod.fst).Nodup) : ((dictInsert d a v).map Prod.fst).Nodup := by
  induction d with
  | nil => simp [dictInsert]
  | cons p ps ih =>
    simp only [List.map_cons, List.nodup_cons] at h
    by_cases hpa : p.1 = a
    · simp only [dictInsert, hpa, if_pos, List.map_cons, List.nodup_cons]
      exact ⟨by rw [← hpa]; exact h.1, h.2⟩
    · simp only [dictInsert, hpa, if_neg, not_false_iff, List.map_cons, List.nodup_cons]
      refine ⟨?_, ih h.2⟩
      intro hmem
      rcases (mem_keys_dictInsert ps a v p.1).1 hmem with h1 | h2
      · exact hpa h1
      · exact h.1 h2

theorem nodupKeys_pyDictOf (ps : List (String × JsonVal)) :
    ((pyDictOf ps).map Prod.fst).Nodup := by
  suffices haux : ∀ d, (d.map Prod.fst).Nodup →
      (((ps.foldl (fun acc p => dictInsert acc p.1 p.2) d)).map Prod.fst).Nodup by
    exact haux [] (by simp)
  induction ps with
  | nil => intro d hd; simpa using hd
  | cons q rest ih =>
    intro d hd
    simp only [List.foldl_cons]
    exact ih _ (nodupKeys_dictInsert _ _ _ hd)

theorem countP_eq_zero_keys (d : List (String × JsonVal)) (k : String)
    (h : k ∉ d.map Prod.fst) : d.countP (fun p => p.1 = k) = 0 := by
  rw [List.countP_eq_zero]
  intro p hp hpk
  exact h (List.mem_map.2 ⟨p, hp, of_decide_eq_true hpk⟩)

theorem countP_eq_one_of_alookup (d : List (String × JsonVal)) (k : String) (v : JsonVal)
    (hl : alookup d k = some v) (hn : (d.map Prod.fst).Nodup) :
    d.countP (fun p => p.1 = k) = 1 := by
  induction d with
  | nil => simp [alookup] at hl
  | cons p ps ih =>
    simp only [List.map_cons, List.nodup_cons] at hn
    by_cases hpk : p.1 = k
    · rw [List.countP_cons_of_pos _ _ (by simp [hpk])]
      rw [countP_eq_zero_keys ps k (by rw [← hpk]; exact hn.1)]
    · rw [List.countP_cons_of_neg _ _ (by simp [hpk])]
      apply ih
      · simpa [alookup, hpk] using hl
      · exact hn.2

/-- C10: when the input list of `push_source_strings` contains two or more
source strings with the same key, the assembled `data` mapping of the POST
body holds exactly one entry for that key, bound to the serialization of the
last input entry with that key (earlier ones are silently overwritten by the
dict comprehension). -/
theorem push_duplicate_keys_last_wins (strings : List SourceString) (key : String)
    (lastS : SourceString)
    (_hdup : 2 ≤ (strings.filter fun s => s.key = key).length)
    (hlast : strings.reverse.find? (fun s => s.key = key) = some lastS) :
    alookup (pyDictOf (strings.map serialize)) key = some (serialize lastS).2 ∧
    (pyDictOf (strings.map serialize)).countP (fun p => p.1 = key) = 1 := by
  have hfind : (strings.map serialize).reverse.find? (fun p => p.1 = key)
      = some (serialize lastS) := by
    rw [← List.map_reverse, List.find?_map]
    have hcomp : ((fun p : String × JsonVal => decide (p.1 = key)) ∘ serialize)
        = (fun s : SourceString => decide (s.key = key)) := rfl
    rw [hcomp, hlast]
    rfl
  have h1 : alookup (pyDictOf (strings.map serialize)) key = some (serialize lastS).2 := by
    rw [alookup_pyDictOf, hfind]
    rfl
  exact ⟨h1, countP_eq_one_of_alookup _ _ _ h1 (nodupKeys_pyDictOf _)⟩

/-- Two source strings sharing the key `dup_key`. -/
def sA : SourceString := ⟨"dup_key", "first value", [], none⟩

/-- See `sA`. -/
def sB : SourceString := ⟨"dup_key", "second value", [], none⟩

/-- C10 witness: the theorem applied at a concrete two-element list with a
duplicated key. -/
theorem push_duplicate_keys_last_wins_witness :
    alookup (pyDictOf ([sA, sB].map serialize)) "dup_key" = some (serialize sB).2 ∧
    (pyDictOf ([sA, sB].map serialize)).countP (fun p => p.1 = "dup_key") = 1 :=
  push_duplicate_keys_last_wins [sA, sB] "dup_key" sB (by decide) rfl

/-! ### Iteration failures inside the fetch_translations loop (C4) -/

theorem contentLoop_append_fail (h : CDSHandler) (env : Net) (done : List String)
    (dv : String → JsonVal) (c : String) (rest : List String) (lb : List String)
    (e : PyExc)
    (hok : ∀ x ∈ done, ContentOk h env x (dv x))
    (hbad : ContentFailure h env c lb e) :
    contentLoop h env (done ++ c :: rest) =
      ⟨done.map (contentReq h) ++ [contentReq h c], lb,
       done.map (fun x => (x, dv x)), some e⟩ := by
  induction done with
  | nil =>
    simp only [List.nil_append, List.map_nil]
    cases hbad with
    | conn henv => simp [contentLoop, henv]
    | status r henv hst =>
      simp [contentLoop, henv, hst]
      rfl
    | badBody r henv hst hb => simp [contentLoop, henv, hst, hb]
    | badData r v e2 henv hst hb hd => simp [contentLoop, henv, hst, hb, hd]
  | cons x xs ih =>
    obtain ⟨r, v, henv, hst, hb, hd⟩ := hok x (by simp)
    have ih2 := ih (fun y hy => hok y (by simp [hy]))
    simp only [List.cons_append]
    simp [contentLoop, henv, hst, hb, hd, ih2]

theorem mapSubscriptCode_records (codes : List String) :
    mapSubscriptCode (codes.map fun c => JsonVal.obj [("code", .str c)]) =
      .ok (codes.map JsonVal.str) := by
  induction codes with
  | nil => rfl
  | cons c cs ih => simp [mapSubscriptCode, pySubscript, alookup, ih]

theorem any_isUnhashable_strs (codes : List String) :
    (codes.map JsonVal.str).any isUnhashable = false := by
  induction codes with
  | nil => rfl
  | cons c cs ih => simp [isUnhashable, ih]

theorem filterMap_strs (codes : List String) :
    (codes.map JsonVal.str).filterMap
      (fun v => match v with | JsonVal.str s => some s | _ => none) = codes := by
  induction codes with
  | nil => rfl
  | cons c cs ih =>
    show c :: (cs.map JsonVal.str).filterMap
      (fun v => match v with | JsonVal.str s => some s | _ => none) = c :: cs
    rw [ih]

theorem codesInter_strs (codes cfg : List String) :
    codesInter (codes.map JsonVal.str) cfg =
      .ok (codes.dedup.filter fun c => decide (c ∈ cfg)) := by
  unfold codesInter
  rw [any_isUnhashable_strs, filterMap_strs]
  simp

theorem discoverPhase_of_langs (h : CDSHandler) (env : Net) (codes : List String)
    (s : Nat) (rsn : String)
    (hlang : env (langReq h) = .ok ⟨s, rsn, .json (.obj [("data",
        .arr (codes.map fun x => .obj [("code", .str x)]))])⟩)
    (hst : statusErr s = false) :
    discoverPhase h env =
      ([langReq h], [],
       .ok (codes.dedup.filter fun x => decide (x ∈ h.configured_language_codes))) := by
  have hfl : fetchLanguagesE h env = ⟨[langReq h], [],
      .ok (.arr (codes.map fun x => .obj [("code", .str x)]))⟩ := by
    simp [fetchLanguagesE, fetchLanguagesBody, hlang, hst, pySubscript, alookup]
  simp [discoverPhase, hfl, extractCodes, pyIter, mapSubscriptCode_records, codesInter_strs]

/-- A network that serves the language list `[el]` but answers 500 on the
`el` content request. -/
def envStatus500El : Net := fun req =>
  if req.url = "https://some.host/languages" then
    .ok ⟨200, "OK", .json (.obj [("data", .arr [.obj [("code", .str "el")]])])⟩
  else if req.url = "https://some.host/content/el" then
    .ok ⟨500, "Internal Server Error", .json (.obj [("data", .obj [])])⟩
  else .raiseConn

/-- C4 counterexample: when the (successfully obtained) language `el` answers
500 on its content request, `fetch_translations` logs TWO errors (the
reason-phrase line, then the UnknownError classification line), not "exactly
one" as the claim states. -/
theorem fetch_translations_two_logs_cex :
    fetchTranslationsE hEl envStatus500El none =
      ⟨[langReq hEl, contentReq hEl "el"],
       [transReasonMsg "Internal Server Error",
        transUnknownMsg
          "500 Server Error: Internal Server Error for url: https://some.host/content/el"],
       .ok []⟩ ∧
    [transReasonMsg "Internal Server Error",
     transUnknownMsg
       "500 Server Error: Internal Server Error for url: https://some.host/content/el"].length
      ≠ 1 :=
  ⟨rfl, by decide⟩

/-- C4 (amended): once the language list is obtained successfully, a failing
content request aborts all remaining iterations and the method returns the
mapping accumulated for the languages processed before the failure; a final
error is logged using the same three-way classification as `fetch_languages`
with "translations" in the message, preceded — only in the HTTP-status case —
by one extra log line quoting the response's reason phrase (so two errors are
logged in that case, one otherwise, the inner-loop lines being recorded by the
`ContentFailure` hypothesis). -/
theorem fetch_translations_iteration_failure (h : CDSHandler) (env : Net)
    (codes : List String) (s : Nat) (rsn : String)
    (done : List String) (c : String) (rest : List String)
    (dv : String → JsonVal) (lb : List String) (e : PyExc)
    (hlang : env (langReq h) = .ok ⟨s, rsn, .json (.obj [("data",
        .arr (codes.map fun x => .obj [("code", .str x)]))])⟩)
    (hst : statusErr s = false)
    (hsplit : codes.dedup.filter (fun x => decide (x ∈ h.configured_language_codes))
        = done ++ c :: rest)
    (hok : ∀ x ∈ done, ContentOk h env x (dv x))
    (hbad : ContentFailure h env c lb e) :
    fetchTranslationsE h env none =
      ⟨langReq h :: (done.map (contentReq h) ++ [contentReq h c]),
       lb ++ [handleTransExc e],
       .ok (done.map fun x => (x, dv x))⟩ := by
  have hdp := discoverPhase_of_langs h env codes s rsn hlang hst
  have hloop := contentLoop_append_fail h env done dv c rest lb e hok hbad
  simp [fetchTranslationsE, hdp, hsplit, assembleTrans, hloop]

/-- A network that serves the language list `[el]` but raises a connection
error on every other request. -/
def envLangsThenDown : Net := fun req =>
  if req.url = "https://some.host/languages" then
    .ok ⟨200, "OK", .json (.obj [("data", .arr [.obj [("code", .str "el")]])])⟩
  else .raiseConn

/-- C4 witness: the amended theorem applied where the single configured
language's content request raises a connection error: the loop aborts, one
classification error is logged, and the empty accumulated mapping is
returned. -/
theorem fetch_translations_iteration_failure_witness :
    fetchTranslationsE hEl envLangsThenDown none =
      ⟨[langReq hEl, contentReq hEl "el"], [transConnMsg], .ok []⟩ :=
  fetch_translations_iteration_failure hEl envLangsThenDown ["el"] 200 "OK"
    [] "el" [] (fun _ => JsonVal.null) [] .connectionError rfl rfl rfl
    (by intro x hx; simp at hx) (ContentFailure.conn rfl)
